import Mathlib

/-!
Verification development for the purchase-transaction engine of a small
inventory backend (Express + node-sqlite3, `src/index.js`).

Modelling choices, all taken from the source:

* The three SQLite tables (`items`, `purchases`, `purchase_items`) are lists
  of rows; each table's AUTOINCREMENT key is a counter carried in the state.
  The `date` column (filled by the store with CURRENT_TIMESTAMP) is not
  modelled: no handler logic reads it.
* JSON request bodies are a `JVal` tree.  JSON numbers are rationals: the
  JSON grammar has no NaN or infinity, so `typeof x === "number"` checks and
  comparisons are exact on ℚ.  An absent field is `Option.none`
  (JavaScript `undefined`).
* Each HTTP handler is a pure function from a request body and a database
  state to a new state plus a response.  `next(err)` reaches the global
  error handler, which answers 500 with the fixed text "Internal Server
  Error" (src/index.js lines 258-261).

Timing of the purchase handler (`app.post("/purchases")`, src/index.js
lines 102-181).  node-sqlite3 runs `db.run` and `Statement.run`
asynchronously: the call only queues the statement (serialized in queue
order under `db.serialize`), and its callback fires on the event loop
later.  JavaScript callbacks never run while the synchronous block that
scheduled them is still executing (run-to-completion).  Inside the
header-insert callback the code synchronously queues every per-line INSERT
and UPDATE, then reads `stockError` — still at its initial value `false`,
because the statement callbacks that could set it have not run yet — and
therefore always queues COMMIT.  The per-line statements then execute in
queue order; their callbacks set `stockError` too late for anything to read
it.  `submitPurchase` below embeds exactly this behaviour: the dead
`if (stockError)` branch is kept, with the value the check actually reads.
-/

/-- JSON values as delivered by `express.json()`. -/
inductive JVal where
  | jnull
  | jbool (b : Bool)
  | jnum (q : ℚ)
  | jstr (s : String)
  | jarr (elems : List JVal)
  | jobj (fields : List (String × JVal))

/-- JavaScript property access `v[key]`: a lookup on an object, `undefined`
(here `none`) on arrays, strings, numbers and booleans.  Access on `null`
throws instead; the one place the handlers can access a field of a possibly
null value is guarded by `isNull` below. -/
def getField (v : JVal) (key : String) : Option JVal :=
  match v with
  | JVal.jobj fields => (fields.find? (fun f => f.fst == key)).map (fun f => f.snd)
  | _ => none

/-- JavaScript truthiness of a field value; `none` is `undefined`. -/
def truthy : Option JVal → Bool
  | none => false
  | some JVal.jnull => false
  | some (JVal.jbool b) => b
  | some (JVal.jnum q) => q != 0
  | some (JVal.jstr s) => s != ""
  | some (JVal.jarr _) => true
  | some (JVal.jobj _) => true

/-- The check `typeof x === "string"`. -/
def isString : Option JVal → Bool
  | some (JVal.jstr _) => true
  | _ => false

/-- The check `Number.isInteger(x)`: a JSON number whose reduced denominator is 1. -/
def isIntVal : Option JVal → Bool
  | some (JVal.jnum q) => q.den == 1
  | _ => false

/-- The check `typeof x === "number"`. -/
def isNumVal : Option JVal → Bool
  | some (JVal.jnum _) => true
  | _ => false

/-- The integer value of a field already known to satisfy `isIntVal`. -/
def asInt : Option JVal → Int
  | some (JVal.jnum q) => q.num
  | _ => 0

/-- The numeric value of a field already known to satisfy `isNumVal`. -/
def asRat : Option JVal → ℚ
  | some (JVal.jnum q) => q
  | _ => 0

/-- The string value of a field already known to satisfy `isString`. -/
def asString : Option JVal → String
  | some (JVal.jstr s) => s
  | _ => ""

/-- Whether a JSON value is `null` (property access on it throws). -/
def isNull : JVal → Bool
  | JVal.jnull => true
  | _ => false

/-- One row of the `items` table (src/index.js lines 226-232). -/
structure Item where
  id : Int
  name : String
  stock : Int
  price : ℚ
deriving DecidableEq

/-- One row of the `purchases` table (src/index.js lines 234-241); the
`date` column, filled by the store, carries no handler logic. -/
structure Purchase where
  id : Int
  customer_name : String
  shipping_address : String
deriving DecidableEq

/-- One row of the `purchase_items` table (src/index.js lines 243-252). -/
structure PurchaseLine where
  id : Int
  purchase_id : Int
  item_id : Int
  quantity : Int
deriving DecidableEq

/-- The SQLite database: the three tables and their AUTOINCREMENT counters. -/
structure DB where
  items : List Item
  purchases : List Purchase
  purchase_items : List PurchaseLine
  nextItemId : Int
  nextPurchaseId : Int
  nextLineId : Int
deriving DecidableEq

/-- The responses the handlers send. -/
inductive Resp where
  | created (purchase_id : Int)
  | createdItem (id : Int)
  | updatedOk (changes : Nat)
  | badRequest (msg : String)
  | notFound (msg : String)
  | serverError (msg : String)
deriving DecidableEq

/-- The three body checks written out identically in POST /items
(src/index.js lines 35-49) and PUT /items/:id (lines 75-89). -/
def itemBodyError (body : JVal) : Option Resp :=
  if !truthy (getField body "name") || !isString (getField body "name") then
    some (Resp.badRequest "Item name is required and must be a string")
  else if !isIntVal (getField body "stock") || decide (asInt (getField body "stock") < 0) then
    some (Resp.badRequest "Stock must be a non-negative integer")
  else if !isNumVal (getField body "price") || decide (asRat (getField body "price") < 0) then
    some (Resp.badRequest "Price must be a non-negative number")
  else none

/-- POST /items (src/index.js lines 32-56): validate, then INSERT. -/
def postItem (db : DB) (body : JVal) : DB × Resp :=
  match itemBodyError body with
  | some r => (db, r)
  | none =>
    let iid := db.nextItemId
    ({ db with
        items := db.items ++ [{ id := iid,
                                name := asString (getField body "name"),
                                stock := asInt (getField body "stock"),
                                price := asRat (getField body "price") }],
        nextItemId := iid + 1 },
     Resp.createdItem iid)

/-- PUT /items/:id (src/index.js lines 71-99): validate, then UPDATE; 404
when the UPDATE touches no row. -/
def putItem (db : DB) (idParam : Int) (body : JVal) : DB × Resp :=
  match itemBodyError body with
  | some r => (db, r)
  | none =>
    let changes := (db.items.filter (fun it => it.id == idParam)).length
    if changes == 0 then (db, Resp.notFound "Item not found")
    else
      ({ db with items := db.items.map (fun it =>
            if it.id == idParam then
              { id := it.id,
                name := asString (getField body "name"),
                stock := asInt (getField body "stock"),
                price := asRat (getField body "price") }
            else it) },
       Resp.updatedOk changes)

/-- Per-line validation of the purchase body (src/index.js lines 116-125):
`!item.item_id || !Number.isInteger(item.item_id)` then
`!Number.isInteger(item.quantity) || item.quantity <= 0`.  On a null line
the property access itself throws; Express catches the TypeError and the
global handler answers 500. -/
def checkLine (line : JVal) : Option Resp :=
  if isNull line then some (Resp.serverError "Internal Server Error")
  else if !truthy (getField line "item_id") || !isIntVal (getField line "item_id") then
    some (Resp.badRequest "Item ID must be an integer")
  else if !isIntVal (getField line "quantity")
          || decide (asInt (getField line "quantity") ≤ 0) then
    some (Resp.badRequest "Quantity must be a positive integer")
  else none

/-- The validation loop over `items`, in request order, together with the
destructuring `const { item_id, quantity } of items` done later by the
transaction loop on the very same values. -/
def validateLines : List JVal → Except Resp (List (Int × Int))
  | [] => Except.ok []
  | l :: ls =>
    match checkLine l with
    | some r => Except.error r
    | none =>
      match validateLines ls with
      | Except.error r => Except.error r
      | Except.ok rest =>
          Except.ok ((asInt (getField l "item_id") , asInt (getField l "quantity")) :: rest)

/-- The whole validation phase of POST /purchases (src/index.js lines
103-125), run before any storage statement. -/
def validatePurchase (body : JVal) : Except Resp (String × String × List (Int × Int)) :=
  if !truthy (getField body "customer_name") || !isString (getField body "customer_name") then
    Except.error (Resp.badRequest "Customer name is required")
  else if !truthy (getField body "shipping_address")
          || !isString (getField body "shipping_address") then
    Except.error (Resp.badRequest "Shipping address is required")
  else
    match getField body "items" with
    | some (JVal.jarr ls) =>
      if ls.isEmpty then Except.error (Resp.badRequest "At least one item is required")
      else
        match validateLines ls with
        | Except.error r => Except.error r
        | Except.ok lines =>
            Except.ok (asString (getField body "customer_name"),
                       asString (getField body "shipping_address"), lines)
    | _ => Except.error (Resp.badRequest "At least one item is required")

/-- Effect on the `items` table of
`UPDATE items SET stock = stock - ? WHERE id = ? AND stock >= ?`
with parameters `[qty, iid, qty]` (src/index.js lines 146-148). -/
def applyDec (iid qty : Int) (items : List Item) : List Item :=
  items.map (fun it =>
    if it.id = iid ∧ qty ≤ it.stock then { it with stock := it.stock - qty } else it)

/-- The conditional-decrement statement: the updated table together with
`this.changes`, the number of rows the WHERE clause matched. -/
def updateStockRun (db : DB) (qty iid : Int) : DB × Nat :=
  ({ db with items := applyDec iid qty db.items },
   (db.items.filter (fun it => decide (it.id = iid ∧ qty ≤ it.stock))).length)

/-- INSERT INTO purchases (customer_name, shipping_address) VALUES (?, ?)
(src/index.js lines 130-132); returns `this.lastID`. -/
def insertPurchaseRun (db : DB) (cn sa : String) : DB × Int :=
  ({ db with
      purchases := db.purchases ++ [{ id := db.nextPurchaseId,
                                      customer_name := cn,
                                      shipping_address := sa }],
      nextPurchaseId := db.nextPurchaseId + 1 },
   db.nextPurchaseId)

/-- INSERT INTO purchase_items (purchase_id, item_id, quantity) VALUES (?, ?, ?)
(src/index.js lines 141-144). -/
def insertLineRun (db : DB) (pid iid qty : Int) : DB :=
  { db with
      purchase_items := db.purchase_items ++ [{ id := db.nextLineId,
                                                purchase_id := pid,
                                                item_id := iid,
                                                quantity := qty }],
      nextLineId := db.nextLineId + 1 }

/-- Execution, in queue order, of the per-line statements the loop at
src/index.js lines 152-159 scheduled: for each line an INSERT into
purchase_items, then the conditional stock decrement.  The Boolean result
is the value `stockError` finally reaches once all the `updateStock`
callbacks have fired (`err || this.changes === 0`); nothing in the handler
reads it at that point. -/
def runLineOps (pid : Int) : DB → List (Int × Int) → DB × Bool
  | db, [] => (db, false)
  | db, (iid, qty) :: rest =>
    let step := updateStockRun (insertLineRun db pid iid qty) qty iid
    let next := runLineOps pid step.fst rest
    (next.fst, next.snd || decide (step.snd = 0))

/-- The storage statements a request causes, in the order they are queued
(and, under `db.serialize`, executed). -/
inductive DbOp where
  | beginTx
  | insertPurchase (customer_name shipping_address : String)
  | insertLine (purchase_id item_id quantity : Int)
  | updStock (quantity item_id : Int)
  | commit
  | rollback
deriving DecidableEq

/-- The per-line statements queued by the loop, in request order. -/
def lineOpsQueue (pid : Int) : List (Int × Int) → List DbOp
  | [] => []
  | (iid, qty) :: rest =>
      DbOp.insertLine pid iid qty :: DbOp.updStock qty iid :: lineOpsQueue pid rest

/-- Outcome of one POST /purchases request: final database, response sent,
and the storage statements issued. -/
structure SubmitResult where
  db : DB
  resp : Resp
  ops : List DbOp
deriving DecidableEq

/-- POST /purchases (src/index.js lines 102-181).  `commitOk` says whether
the COMMIT statement itself succeeds at the storage layer; on failure its
callback issues ROLLBACK and `next(err)` reaches the global 500 handler.
The local `stockErrorAtCheck` is the value the synchronous
`if (stockError)` at line 164 reads: the initializer `false`, because the
`updateStock` callbacks that assign `true` fire only after this block
(JavaScript run-to-completion; node-sqlite3 callbacks are asynchronous).
The queued statements are then executed by `runLineOps`; the final value of
`stockError` is computed but read by nothing, exactly as in the source. -/
def submitPurchase (db : DB) (body : JVal) (commitOk : Bool) : SubmitResult :=
  match validatePurchase body with
  | Except.error r => { db := db, resp := r, ops := [] }
  | Except.ok (cn, sa, lines) =>
    let header := insertPurchaseRun db cn sa
    let pid := header.snd
    let stockErrorAtCheck := false
    let ops := DbOp.beginTx :: DbOp.insertPurchase cn sa ::
        (lineOpsQueue pid lines
          ++ (if stockErrorAtCheck then [DbOp.rollback]
              else DbOp.commit :: (if commitOk then [] else [DbOp.rollback])))
    let run := runLineOps pid header.fst lines
    if stockErrorAtCheck then
      { db := db, resp := Resp.badRequest "Insufficient stock or invalid item", ops := ops }
    else if commitOk then
      { db := run.fst, resp := Resp.created pid, ops := ops }
    else
      { db := db, resp := Resp.serverError "Internal Server Error", ops := ops }

/-- SELECT by primary key on the items table. -/
def itemLookup (items : List Item) (iid : Int) : Option Item :=
  items.find? (fun it => it.id == iid)

/-- Every line's item exists with sufficient stock at the moment that
line's decrement is applied (earlier lines of the same request already
applied). -/
def linesAffordable : List Item → List (Int × Int) → Bool
  | _, [] => true
  | items, (iid, qty) :: rest =>
    match itemLookup items iid with
    | some it => decide (qty ≤ it.stock) && linesAffordable (applyDec iid qty items) rest
    | none => false

/-- Total quantity a request's lines ask of one item. -/
def totalQty (lines : List (Int × Int)) (iid : Int) : Int :=
  ((lines.filter (fun p => p.fst == iid)).map (fun p => p.snd)).sum

/-- The purchase_items rows a request appends, with their AUTOINCREMENT ids. -/
def numberLines (startId pid : Int) : List (Int × Int) → List PurchaseLine
  | [] => []
  | (iid, qty) :: rest =>
      { id := startId, purchase_id := pid, item_id := iid, quantity := qty }
        :: numberLines (startId + 1) pid rest

/-- The items table after the conditional decrements of all lines, in
request order. -/
def foldDec : List (Int × Int) → List Item → List Item
  | [], items => items
  | (iid, qty) :: rest, items => foldDec rest (applyDec iid qty items)

/-- The conditional update never changes a row's id. -/
theorem applyDec_map_id (iid qty : Int) (items : List Item) :
    (applyDec iid qty items).map Item.id = items.map Item.id := by
  unfold applyDec
  rw [List.map_map]
  apply List.map_congr_left
  intro it _
  simp only [Function.comp_apply]
  split <;> rfl

/-- Unfolding one step of the queued line statements. -/
theorem runLineOps_cons (pid iid qty : Int) (rest : List (Int × Int)) (db : DB) :
    (runLineOps pid db ((iid, qty) :: rest)).fst
      = (runLineOps pid (updateStockRun (insertLineRun db pid iid qty) qty iid).fst rest).fst :=
  rfl

/-- Executing the queued line statements applies the conditional decrements
in request order. -/
theorem runLineOps_items (pid : Int) (lines : List (Int × Int)) :
    ∀ db : DB, ((runLineOps pid db lines).fst).items = foldDec lines db.items := by
  induction lines with
  | nil => intro db; rfl
  | cons p rest ih =>
    obtain ⟨iid, qty⟩ := p
    intro db
    rw [runLineOps_cons, ih]
    rfl

/-- Executing the queued line statements touches no purchases row. -/
theorem runLineOps_purchases (pid : Int) (lines : List (Int × Int)) :
    ∀ db : DB, ((runLineOps pid db lines).fst).purchases = db.purchases := by
  induction lines with
  | nil => intro db; rfl
  | cons p rest ih =>
    obtain ⟨iid, qty⟩ := p
    intro db
    rw [runLineOps_cons, ih]
    rfl

/-- Executing the queued line statements does not move the purchases counter. -/
theorem runLineOps_nextPurchaseId (pid : Int) (lines : List (Int × Int)) :
    ∀ db : DB, ((runLineOps pid db lines).fst).nextPurchaseId = db.nextPurchaseId := by
  induction lines with
  | nil => intro db; rfl
  | cons p rest ih =>
    obtain ⟨iid, qty⟩ := p
    intro db
    rw [runLineOps_cons, ih]
    rfl

/-- Executing the queued line statements appends exactly one purchase_items
row per request line, numbered from the current counter. -/
theorem runLineOps_purchase_items (pid : Int) (lines : List (Int × Int)) :
    ∀ db : DB, ((runLineOps pid db lines).fst).purchase_items
      = db.purchase_items ++ numberLines db.nextLineId pid lines := by
  induction lines with
  | nil => intro db; simp [runLineOps, numberLines]
  | cons p rest ih =>
    obtain ⟨iid, qty⟩ := p
    intro db
    rw [runLineOps_cons, ih]
    have hstep : (updateStockRun (insertLineRun db pid iid qty) qty iid).fst.purchase_items
        = db.purchase_items ++ [(⟨db.nextLineId, pid, iid, qty⟩ : PurchaseLine)] := rfl
    have hnext : (updateStockRun (insertLineRun db pid iid qty) qty iid).fst.nextLineId
        = db.nextLineId + 1 := rfl
    rw [hstep, hnext, List.append_assoc]
    rfl

/-- Shape of a successful POST /purchases run: validation passed, the
commit statement succeeded, so the handler answers 201 with the header's
lastID regardless of the per-line decrement outcomes. -/
theorem submitPurchase_commit (db : DB) (body : JVal) (cn sa : String)
    (lines : List (Int × Int)) (h : validatePurchase body = Except.ok (cn, sa, lines)) :
    submitPurchase db body true =
      { db := (runLineOps db.nextPurchaseId (insertPurchaseRun db cn sa).fst lines).fst,
        resp := Resp.created db.nextPurchaseId,
        ops := DbOp.beginTx :: DbOp.insertPurchase cn sa ::
          (lineOpsQueue db.nextPurchaseId lines ++ [DbOp.commit]) } := by
  unfold submitPurchase
  rw [h]
  rfl

/-- Shape of a POST /purchases run whose COMMIT fails at the storage
layer: the COMMIT callback issues ROLLBACK (restoring the pre-transaction
state) and next(err) reaches the global 500 handler. -/
theorem submitPurchase_commitFail (db : DB) (body : JVal) (cn sa : String)
    (lines : List (Int × Int)) (h : validatePurchase body = Except.ok (cn, sa, lines)) :
    submitPurchase db body false =
      { db := db,
        resp := Resp.serverError "Internal Server Error",
        ops := DbOp.beginTx :: DbOp.insertPurchase cn sa ::
          (lineOpsQueue db.nextPurchaseId lines ++ [DbOp.commit, DbOp.rollback]) } := by
  unfold submitPurchase
  rw [h]
  rfl

/-- Shape of a POST /purchases run that fails validation: the handler
returns before `db.serialize`, issuing no storage statement. -/
theorem submitPurchase_invalid (db : DB) (body : JVal) (commitOk : Bool) (r : Resp)
    (h : validatePurchase body = Except.error r) :
    submitPurchase db body commitOk = { db := db, resp := r, ops := [] } := by
  unfold submitPurchase
  rw [h]

/-- Concrete item number 1 with the given stock, at price 5. -/
def itemW (stock : Int) : Item :=
  { id := 1, name := "Widget", stock := stock, price := 5 }

/-- Concrete one-item store holding `itemW stock` and no purchases. -/
def dbW (stock : Int) : DB :=
  { items := [itemW stock], purchases := [], purchase_items := [],
    nextItemId := 2, nextPurchaseId := 1, nextLineId := 1 }

/-- Concrete request line for item 1 with the given quantity. -/
def lineW (qty : ℚ) : JVal :=
  JVal.jobj [("item_id", JVal.jnum 1), ("quantity", JVal.jnum qty)]

/-- Concrete purchase body with the given request lines. -/
def bodyLines (ls : List JVal) : JVal :=
  JVal.jobj [("customer_name", JVal.jstr "Ann"),
             ("shipping_address", JVal.jstr "Main St"),
             ("items", JVal.jarr ls)]

/-- Concrete single-line purchase body for item 1 with the given quantity. -/
def bodyW (qty : ℚ) : JVal := bodyLines [lineW qty]

/-- C8: every request that fails validation causes no storage access at
all: no statement is issued, no transaction is begun, the store is
unchanged, and the validation error is the response. -/
theorem validation_failure_no_storage (db : DB) (body : JVal) (commitOk : Bool) (e : Resp)
    (h : validatePurchase body = Except.error e) :
    (submitPurchase db body commitOk).ops = []
    ∧ (submitPurchase db body commitOk).db = db
    ∧ (submitPurchase db body commitOk).resp = e := by
  rw [submitPurchase_invalid db body commitOk e h]
  exact ⟨rfl, rfl, rfl⟩

/-- Witness for C8 at the Scenario C input: items = [] is rejected with a
validation error, no statement issued, store unchanged. -/
theorem validation_failure_no_storage_witness :
    validatePurchase (bodyLines []) = Except.error (Resp.badRequest "At least one item is required")
    ∧ ((submitPurchase (dbW 10) (bodyLines []) true).ops = []
       ∧ (submitPurchase (dbW 10) (bodyLines []) true).db = dbW 10
       ∧ (submitPurchase (dbW 10) (bodyLines []) true).resp
           = Resp.badRequest "At least one item is required") :=
  ⟨rfl, validation_failure_no_storage (dbW 10) (bodyLines []) true
    (Resp.badRequest "At least one item is required") rfl⟩

/-- C6: when the lines all succeed but the COMMIT statement itself fails at
the storage layer, the transaction is rolled back (the store returns to its
pre-request state) and an opaque storage error, not a success response, is
reported, exposing no internal storage detail. -/
theorem commit_failure_rolls_back (db : DB) (body : JVal) (cn sa : String)
    (lines : List (Int × Int))
    (hval : validatePurchase body = Except.ok (cn, sa, lines))
    (haff : linesAffordable db.items lines = true) :
    (submitPurchase db body false).db = db
    ∧ (submitPurchase db body false).resp = Resp.serverError "Internal Server Error" := by
  rw [submitPurchase_commitFail db body cn sa lines hval]
  exact ⟨rfl, rfl⟩

/-- Witness for C6: item at stock 10, one affordable line of quantity 3,
commit failing. -/
theorem commit_failure_rolls_back_witness :
    validatePurchase (bodyW 3) = Except.ok ("Ann", "Main St", [(1, 3)])
    ∧ linesAffordable (dbW 10).items [(1, 3)] = true
    ∧ ((submitPurchase (dbW 10) (bodyW 3) false).db = dbW 10
       ∧ (submitPurchase (dbW 10) (bodyW 3) false).resp
           = Resp.serverError "Internal Server Error") :=
  ⟨rfl, rfl, commit_failure_rolls_back (dbW 10) (bodyW 3) "Ann" "Main St" [(1, 3)] rfl rfl⟩

/-- C7: purchase submission is not idempotent: submitting the same valid
request twice, with all lines succeeding both times, creates two
independent purchase rows and the two responses carry two distinct
purchase identifiers. -/
theorem resubmission_distinct_ids (db : DB) (body : JVal) (cn sa : String)
    (lines : List (Int × Int))
    (hval : validatePurchase body = Except.ok (cn, sa, lines))
    (haff1 : linesAffordable db.items lines = true)
    (haff2 : linesAffordable (submitPurchase db body true).db.items lines = true) :
    (submitPurchase db body true).resp = Resp.created db.nextPurchaseId
    ∧ (submitPurchase (submitPurchase db body true).db body true).resp
        = Resp.created (db.nextPurchaseId + 1)
    ∧ db.nextPurchaseId ≠ db.nextPurchaseId + 1
    ∧ (⟨db.nextPurchaseId, cn, sa⟩ : Purchase)
        ∈ (submitPurchase (submitPurchase db body true).db body true).db.purchases
    ∧ (⟨db.nextPurchaseId + 1, cn, sa⟩ : Purchase)
        ∈ (submitPurchase (submitPurchase db body true).db body true).db.purchases := by
  have h1 := submitPurchase_commit db body cn sa lines hval
  have hdb1p : (submitPurchase db body true).db.purchases
      = db.purchases ++ [(⟨db.nextPurchaseId, cn, sa⟩ : Purchase)] := by
    rw [h1]
    show (runLineOps db.nextPurchaseId (insertPurchaseRun db cn sa).fst lines).fst.purchases = _
    rw [runLineOps_purchases]
    rfl
  have hdb1n : (submitPurchase db body true).db.nextPurchaseId = db.nextPurchaseId + 1 := by
    rw [h1]
    show (runLineOps db.nextPurchaseId (insertPurchaseRun db cn sa).fst lines).fst.nextPurchaseId = _
    rw [runLineOps_nextPurchaseId]
    rfl
  have h2 := submitPurchase_commit (submitPurchase db body true).db body cn sa lines hval
  have hdb2p : (submitPurchase (submitPurchase db body true).db body true).db.purchases
      = (submitPurchase db body true).db.purchases
        ++ [(⟨(submitPurchase db body true).db.nextPurchaseId, cn, sa⟩ : Purchase)] := by
    rw [h2]
    show (runLineOps (submitPurchase db body true).db.nextPurchaseId
      (insertPurchaseRun (submitPurchase db body true).db cn sa).fst lines).fst.purchases = _
    rw [runLineOps_purchases]
    rfl
  refine ⟨by rw [h1], ?_, by omega, ?_, ?_⟩
  · rw [h2, hdb1n]
  · rw [hdb2p, hdb1p]
    simp [List.mem_append]
  · rw [hdb2p, hdb1p, hdb1n]
    simp [List.mem_append]

/-- Witness for C7: stock 10 suffices for two submissions of quantity 3. -/
theorem resubmission_distinct_ids_witness :
    validatePurchase (bodyW 3) = Except.ok ("Ann", "Main St", [(1, 3)])
    ∧ linesAffordable (dbW 10).items [(1, 3)] = true
    ∧ linesAffordable (submitPurchase (dbW 10) (bodyW 3) true).db.items [(1, 3)] = true
    ∧ ((submitPurchase (dbW 10) (bodyW 3) true).resp = Resp.created (dbW 10).nextPurchaseId
       ∧ (submitPurchase (submitPurchase (dbW 10) (bodyW 3) true).db (bodyW 3) true).resp
           = Resp.created ((dbW 10).nextPurchaseId + 1)
       ∧ (dbW 10).nextPurchaseId ≠ (dbW 10).nextPurchaseId + 1
       ∧ (⟨(dbW 10).nextPurchaseId, "Ann", "Main St"⟩ : Purchase)
           ∈ (submitPurchase (submitPurchase (dbW 10) (bodyW 3) true).db (bodyW 3) true).db.purchases
       ∧ (⟨(dbW 10).nextPurchaseId + 1, "Ann", "Main St"⟩ : Purchase)
           ∈ (submitPurchase (submitPurchase (dbW 10) (bodyW 3) true).db (bodyW 3) true).db.purchases) :=
  ⟨rfl, rfl, rfl,
    resubmission_distinct_ids (dbW 10) (bodyW 3) "Ann" "Main St" [(1, 3)] rfl rfl rfl⟩

/-- C2 (code_bug evidence, Scenario B): item 1 has stock 2 and the request
asks for quantity 5.  The claim and the spec demand a full rollback and a
single "insufficient stock or invalid item" client error; the handler as
written instead answers 201 success, the purchase header and its line are
committed, and only the stock is left unchanged — the `if (stockError)`
rollback branch reads the flag before any statement callback has set it. -/
theorem insufficient_stock_commits_anyway :
    (submitPurchase (dbW 2) (bodyW 5) true).resp = Resp.created 1
    ∧ (submitPurchase (dbW 2) (bodyW 5) true).db.purchases
        = [⟨1, "Ann", "Main St"⟩]
    ∧ (submitPurchase (dbW 2) (bodyW 5) true).db.purchase_items
        = [⟨1, 1, 1, 5⟩]
    ∧ (submitPurchase (dbW 2) (bodyW 5) true).db.items = [itemW 2]
    ∧ (runLineOps 1 (insertPurchaseRun (dbW 2) "Ann" "Main St").fst [(1, 5)]).snd = true :=
  ⟨rfl, rfl, rfl, rfl, rfl⟩

/-- C5 (code_bug evidence, Scenario D): stock 5, two lines of quantity 3
against the same item.  The first decrement is applied (stock 5 → 2), the
second affects zero rows; the claim and the spec demand that the entire
purchase be rolled back with stock back at 5, but the handler commits the
header, both lines and the first decrement, and answers 201 success. -/
theorem joint_overdraw_not_rolled_back :
    (submitPurchase (dbW 5) (bodyLines [lineW 3, lineW 3]) true).resp = Resp.created 1
    ∧ (submitPurchase (dbW 5) (bodyLines [lineW 3, lineW 3]) true).db.items = [itemW 2]
    ∧ (submitPurchase (dbW 5) (bodyLines [lineW 3, lineW 3]) true).db.purchase_items
        = [⟨1, 1, 1, 3⟩, ⟨2, 1, 1, 3⟩]
    ∧ (submitPurchase (dbW 5) (bodyLines [lineW 3, lineW 3]) true).db.purchases
        = [⟨1, "Ann", "Main St"⟩] :=
  ⟨rfl, rfl, rfl, rfl⟩

/-- C9 (code_bug evidence): two submissions of quantity 3 against a single
item with stock 5 (one interleaving of the claim's concurrent scenario:
the two transactions run back to back).  Stock allows only one purchase,
yet both commit with 201 success — committed purchases times per-purchase
quantity is 6, exceeding the stock 5 — because a purchase whose decrement
affected zero rows is committed anyway.  The stock itself never goes
negative (it ends at 2): only the conditional decrement touches it. -/
theorem sequential_overdraw_both_commit :
    (submitPurchase (dbW 5) (bodyW 3) true).resp = Resp.created 1
    ∧ (submitPurchase (submitPurchase (dbW 5) (bodyW 3) true).db (bodyW 3) true).resp
        = Resp.created 2
    ∧ (submitPurchase (submitPurchase (dbW 5) (bodyW 3) true).db (bodyW 3) true).db.purchases
        = [⟨1, "Ann", "Main St"⟩, ⟨2, "Ann", "Main St"⟩]
    ∧ (submitPurchase (submitPurchase (dbW 5) (bodyW 3) true).db (bodyW 3) true).db.items
        = [itemW 2] :=
  ⟨rfl, rfl, rfl, rfl⟩

/-- With unique row ids, at most one row matches the conditional update's
WHERE clause. -/
theorem filter_match_length_le_one (items : List Item) (iid q : Int)
    (hnd : (items.map Item.id).Nodup) :
    (items.filter (fun it => decide (it.id = iid ∧ q ≤ it.stock))).length ≤ 1 := by
  induction items with
  | nil => simp
  | cons h t ih =>
    simp only [List.map_cons, List.nodup_cons] at hnd
    by_cases hc : h.id = iid ∧ q ≤ h.stock
    · have ht : t.filter (fun it => decide (it.id = iid ∧ q ≤ it.stock)) = [] := by
        rw [List.filter_eq_nil_iff]
        intro a ha
        simp only [decide_eq_true_eq, not_and]
        intro haid _
        apply hnd.1
        rw [hc.1, ← haid]
        exact List.mem_map_of_mem Item.id ha
      have hp : decide (h.id = iid ∧ q ≤ h.stock) = true := decide_eq_true hc
      simp only [List.filter_cons, hp, if_true]
      rw [ht]
      simp
    · have hp : decide (h.id = iid ∧ q ≤ h.stock) = false := decide_eq_false hc
      simp only [List.filter_cons, hp, Bool.false_eq_true, if_false]
      exact ih hnd.2

/-- A row matches the conditional update's WHERE clause iff the item exists
with sufficient stock. -/
theorem filter_match_ne_nil_iff (items : List Item) (iid q : Int) :
    items.filter (fun it => decide (it.id = iid ∧ q ≤ it.stock)) ≠ []
      ↔ ∃ it ∈ items, it.id = iid ∧ q ≤ it.stock := by
  constructor
  · intro hne
    obtain ⟨a, ha⟩ := List.exists_mem_of_ne_nil _ hne
    obtain ⟨ham, hap⟩ := List.mem_filter.mp ha
    exact ⟨a, ham, of_decide_eq_true hap⟩
  · intro he
    obtain ⟨it, hm, hcond⟩ := he
    intro hnil
    have : it ∈ items.filter (fun it => decide (it.id = iid ∧ q ≤ it.stock)) :=
      List.mem_filter.mpr ⟨hm, decide_eq_true hcond⟩
    rw [hnil] at this
    exact absurd this (List.not_mem_nil it)

/-- C3: the Stock Ledger's conditional decrement, for any item id and any
quantity q > 0, affects at most one row; it affects one row exactly when
the item exists with stock at least q; when it affects no row the store is
unchanged; rows not matching are kept as they are; the matching row's stock
is decremented by exactly q; and no row's stock is ever driven below zero. -/
theorem updateStock_conditional_spec (db : DB) (iid q : Int) (hq : 0 < q)
    (hnd : (db.items.map Item.id).Nodup) :
    (updateStockRun db q iid).snd ≤ 1
    ∧ ((updateStockRun db q iid).snd = 1 ↔ ∃ it ∈ db.items, it.id = iid ∧ q ≤ it.stock)
    ∧ ((updateStockRun db q iid).snd = 0 → (updateStockRun db q iid).fst = db)
    ∧ (∀ it ∈ db.items, ¬(it.id = iid ∧ q ≤ it.stock) → it ∈ (updateStockRun db q iid).fst.items)
    ∧ (∀ it ∈ db.items, it.id = iid → q ≤ it.stock →
        ({ it with stock := it.stock - q } : Item) ∈ (updateStockRun db q iid).fst.items)
    ∧ (∀ it2 ∈ (updateStockRun db q iid).fst.items,
        (∀ it ∈ db.items, 0 ≤ it.stock) → 0 ≤ it2.stock) := by
  have hle : (updateStockRun db q iid).snd ≤ 1 := filter_match_length_le_one db.items iid q hnd
  refine ⟨hle, ?_, ?_, ?_, ?_, ?_⟩
  · constructor
    · intro h1
      apply (filter_match_ne_nil_iff db.items iid q).mp
      intro hnil
      have : (updateStockRun db q iid).snd = 0 := by
        show (db.items.filter _).length = 0
        rw [hnil]
        rfl
      omega
    · intro he
      have hne := (filter_match_ne_nil_iff db.items iid q).mpr he
      have hpos : 0 < (updateStockRun db q iid).snd := by
        show 0 < (db.items.filter _).length
        exact List.length_pos.mpr hne
      omega
  · intro h0
    have hnil : db.items.filter (fun it => decide (it.id = iid ∧ q ≤ it.stock)) = [] := by
      have : (db.items.filter (fun it => decide (it.id = iid ∧ q ≤ it.stock))).length = 0 := h0
      exact List.length_eq_zero.mp this
    have hnone : ∀ it ∈ db.items, ¬(it.id = iid ∧ q ≤ it.stock) := by
      intro it hm hcond
      have : it ∈ db.items.filter (fun it => decide (it.id = iid ∧ q ≤ it.stock)) :=
        List.mem_filter.mpr ⟨hm, decide_eq_true hcond⟩
      rw [hnil] at this
      exact absurd this (List.not_mem_nil it)
    have happ : applyDec iid q db.items = db.items := by
      unfold applyDec
      have hpt : ∀ it ∈ db.items,
          (if it.id = iid ∧ q ≤ it.stock then { it with stock := it.stock - q } else it) = it := by
        intro it hm
        rw [if_neg (hnone it hm)]
      calc db.items.map _ = db.items.map (fun it => it) := List.map_congr_left hpt
        _ = db.items := by simp
    show { db with items := applyDec iid q db.items } = db
    rw [happ]
  · intro it hm hc
    exact List.mem_map.mpr ⟨it, hm, if_neg hc⟩
  · intro it hm hid hstock
    exact List.mem_map.mpr ⟨it, hm, if_pos ⟨hid, hstock⟩⟩
  · intro it2 hm2 hinv
    obtain ⟨it, hit, hf⟩ := List.mem_map.mp hm2
    by_cases hc : it.id = iid ∧ q ≤ it.stock
    · rw [if_pos hc] at hf
      rw [← hf]
      show 0 ≤ it.stock - q
      omega
    · rw [if_neg hc] at hf
      rw [← hf]
      exact hinv it hit

/-- Witness for C3: the concrete one-item store at stock 2, decrementing
item 1 by 1. -/
theorem updateStock_conditional_spec_witness :
    (0 : Int) < 1
    ∧ ((dbW 2).items.map Item.id).Nodup
    ∧ ((updateStockRun (dbW 2) 1 1).snd ≤ 1
       ∧ ((updateStockRun (dbW 2) 1 1).snd = 1
            ↔ ∃ it ∈ (dbW 2).items, it.id = 1 ∧ 1 ≤ it.stock)
       ∧ ((updateStockRun (dbW 2) 1 1).snd = 0 → (updateStockRun (dbW 2) 1 1).fst = dbW 2)
       ∧ (∀ it ∈ (dbW 2).items, ¬(it.id = 1 ∧ 1 ≤ it.stock)
            → it ∈ (updateStockRun (dbW 2) 1 1).fst.items)
       ∧ (∀ it ∈ (dbW 2).items, it.id = 1 → 1 ≤ it.stock →
            ({ it with stock := it.stock - 1 } : Item) ∈ (updateStockRun (dbW 2) 1 1).fst.items)
       ∧ (∀ it2 ∈ (updateStockRun (dbW 2) 1 1).fst.items,
            (∀ it ∈ (dbW 2).items, 0 ≤ it.stock) → 0 ≤ it2.stock)) :=
  ⟨by norm_num, by simp [dbW, itemW],
    updateStock_conditional_spec (dbW 2) 1 1 (by norm_num) (by simp [dbW, itemW])⟩

/-- With unique row ids, a SELECT by id finds exactly the member row
carrying that id. -/
theorem itemLookup_eq_some (items : List Item) (it : Item) (iid : Int)
    (hnd : (items.map Item.id).Nodup) (hm : it ∈ items) (hid : it.id = iid) :
    itemLookup items iid = some it := by
  induction items with
  | nil => cases hm
  | cons h t ih =>
    simp only [List.map_cons, List.nodup_cons] at hnd
    rcases List.mem_cons.mp hm with rfl | hmt
    · show List.find? (fun x => x.id == iid) (it :: t) = some it
      rw [List.find?_cons_of_pos]
      simp [hid]
    · have hne : h.id ≠ iid := by
        intro he
        apply hnd.1
        rw [he, ← hid]
        exact List.mem_map_of_mem Item.id hmt
      show List.find? (fun x => x.id == iid) (h :: t) = some it
      rw [List.find?_cons_of_neg]
      · exact ih hnd.2 hmt
      · simp [hne]

/-- Unfolding one step of per-line affordability. -/
theorem linesAffordable_cons (items : List Item) (iid qty : Int) (rest : List (Int × Int))
    (h : linesAffordable items ((iid, qty) :: rest) = true) :
    ∃ it, itemLookup items iid = some it ∧ qty ≤ it.stock
      ∧ linesAffordable (applyDec iid qty items) rest = true := by
  unfold linesAffordable at h
  cases hl : itemLookup items iid with
  | none =>
    rw [hl] at h
    cases (h : false = true)
  | some it =>
    rw [hl] at h
    have h2 : (decide (qty ≤ it.stock) && linesAffordable (applyDec iid qty items) rest) = true := h
    simp only [Bool.and_eq_true, decide_eq_true_eq] at h2
    exact ⟨it, rfl, h2.1, h2.2⟩

/-- A request's lines ask nothing of an item none of them references. -/
theorem totalQty_zero (lines : List (Int × Int)) (iid : Int)
    (h : ∀ p ∈ lines, p.fst ≠ iid) : totalQty lines iid = 0 := by
  unfold totalQty
  have : lines.filter (fun p => p.fst == iid) = [] := by
    rw [List.filter_eq_nil_iff]
    intro p hp
    simp [h p hp]
  rw [this]
  rfl

/-- Applying the conditional decrements of an affordable request, line by
line in request order, subtracts from every item exactly the total
quantity the request asks of it (rows referenced by no line are kept
unchanged: their subtracted total is zero). -/
theorem foldDec_affordable (lines : List (Int × Int)) :
    ∀ items : List Item, (items.map Item.id).Nodup → linesAffordable items lines = true →
    foldDec lines items
      = items.map (fun it => { it with stock := it.stock - totalQty lines it.id }) := by
  induction lines with
  | nil =>
    intro items _ _
    unfold foldDec
    have hpt : ∀ it ∈ items,
        ({ it with stock := it.stock - totalQty [] it.id } : Item) = it := by
      intro it _
      have ht : totalQty [] it.id = 0 := rfl
      rw [ht]
      obtain ⟨i, n, s, pr⟩ := it
      simp
    calc items = items.map (fun it => it) := by simp
      _ = items.map (fun it => { it with stock := it.stock - totalQty [] it.id }) :=
          (List.map_congr_left hpt).symm
  | cons p rest ih =>
    obtain ⟨iid, qty⟩ := p
    intro items hnd haff
    obtain ⟨it0, hl, hst, haff2⟩ := linesAffordable_cons items iid qty rest haff
    show foldDec rest (applyDec iid qty items) = _
    have hnd2 : ((applyDec iid qty items).map Item.id).Nodup := by
      rw [applyDec_map_id]
      exact hnd
    rw [ih (applyDec iid qty items) hnd2 haff2]
    unfold applyDec
    rw [List.map_map]
    apply List.map_congr_left
    intro it hm
    simp only [Function.comp_apply]
    by_cases hc : it.id = iid
    · have hit : itemLookup items iid = some it := itemLookup_eq_some items it iid hnd hm hc
      have heq : it0 = it := by
        rw [hl] at hit
        exact Option.some.inj hit
      have hqs : qty ≤ it.stock := heq ▸ hst
      rw [if_pos ⟨hc, hqs⟩]
      have htq : totalQty ((iid, qty) :: rest) it.id = qty + totalQty rest it.id := by
        simp [totalQty, List.filter_cons, hc]
      show ({ it with stock := it.stock - qty - totalQty rest it.id } : Item)
          = { it with stock := it.stock - totalQty ((iid, qty) :: rest) it.id }
      rw [htq, sub_sub]
    · rw [if_neg (fun hcc => hc hcc.1)]
      have htq : totalQty ((iid, qty) :: rest) it.id = totalQty rest it.id := by
        have hne : iid ≠ it.id := fun he => hc he.symm
        simp [totalQty, List.filter_cons, hne]
      show ({ it with stock := it.stock - totalQty rest it.id } : Item)
          = { it with stock := it.stock - totalQty ((iid, qty) :: rest) it.id }
      rw [htq]

/-- C1: a purchase request that passes validation and is affordable line by
line (each referenced item exists with sufficient stock when its decrement
is applied) persists the purchase header and one purchase_items row per
request line, reduces every referenced item's stock by exactly the
requested quantities, leaves every unreferenced item's row unchanged, and
answers success with the new purchase identifier. -/
theorem purchase_success_spec (db : DB) (body : JVal) (cn sa : String)
    (lines : List (Int × Int))
    (hval : validatePurchase body = Except.ok (cn, sa, lines))
    (hnd : (db.items.map Item.id).Nodup)
    (haff : linesAffordable db.items lines = true) :
    (submitPurchase db body true).resp = Resp.created db.nextPurchaseId
    ∧ (submitPurchase db body true).db.purchases
        = db.purchases ++ [(⟨db.nextPurchaseId, cn, sa⟩ : Purchase)]
    ∧ (submitPurchase db body true).db.purchase_items
        = db.purchase_items ++ numberLines db.nextLineId db.nextPurchaseId lines
    ∧ (submitPurchase db body true).db.items
        = db.items.map (fun it => { it with stock := it.stock - totalQty lines it.id })
    ∧ ∀ it ∈ db.items, (∀ p ∈ lines, p.fst ≠ it.id)
        → it ∈ (submitPurchase db body true).db.items := by
  have h1 := submitPurchase_commit db body cn sa lines hval
  have hitems : (submitPurchase db body true).db.items
      = db.items.map (fun it => { it with stock := it.stock - totalQty lines it.id }) := by
    rw [h1]
    show (runLineOps db.nextPurchaseId (insertPurchaseRun db cn sa).fst lines).fst.items = _
    rw [runLineOps_items]
    show foldDec lines db.items = _
    exact foldDec_affordable lines db.items hnd haff
  refine ⟨by rw [h1], ?_, ?_, hitems, ?_⟩
  · rw [h1]
    show (runLineOps db.nextPurchaseId (insertPurchaseRun db cn sa).fst lines).fst.purchases = _
    rw [runLineOps_purchases]
    rfl
  · rw [h1]
    show (runLineOps db.nextPurchaseId
      (insertPurchaseRun db cn sa).fst lines).fst.purchase_items = _
    rw [runLineOps_purchase_items]
    rfl
  · intro it hm hno
    rw [hitems]
    apply List.mem_map.mpr
    refine ⟨it, hm, ?_⟩
    have htz : totalQty lines it.id = 0 := totalQty_zero lines it.id hno
    rw [htz]
    obtain ⟨i, n, s, pr⟩ := it
    simp

/-- Witness for C1 at the Scenario A input: item 1 at stock 10, one line
of quantity 3. -/
theorem purchase_success_spec_witness :
    validatePurchase (bodyW 3) = Except.ok ("Ann", "Main St", [(1, 3)])
    ∧ ((dbW 10).items.map Item.id).Nodup
    ∧ linesAffordable (dbW 10).items [(1, 3)] = true
    ∧ ((submitPurchase (dbW 10) (bodyW 3) true).resp = Resp.created (dbW 10).nextPurchaseId
       ∧ (submitPurchase (dbW 10) (bodyW 3) true).db.purchases
           = (dbW 10).purchases ++ [(⟨(dbW 10).nextPurchaseId, "Ann", "Main St"⟩ : Purchase)]
       ∧ (submitPurchase (dbW 10) (bodyW 3) true).db.purchase_items
           = (dbW 10).purchase_items
             ++ numberLines (dbW 10).nextLineId (dbW 10).nextPurchaseId [(1, 3)]
       ∧ (submitPurchase (dbW 10) (bodyW 3) true).db.items
           = (dbW 10).items.map
               (fun it => { it with stock := it.stock - totalQty [(1, 3)] it.id })
       ∧ ∀ it ∈ (dbW 10).items, (∀ p ∈ [((1 : Int), (3 : Int))], p.fst ≠ it.id)
           → it ∈ (submitPurchase (dbW 10) (bodyW 3) true).db.items) :=
  ⟨rfl, by simp [dbW, itemW], rfl,
    purchase_success_spec (dbW 10) (bodyW 3) "Ann" "Main St" [(1, 3)] rfl
      (by simp [dbW, itemW]) rfl⟩

/-- Whether a (non-null) request line passes the per-line checks: a truthy
integer item_id — sign unchecked — and a positive integer quantity. -/
def goodLine (l : JVal) : Bool :=
  truthy (getField l "item_id") && isIntVal (getField l "item_id")
    && isIntVal (getField l "quantity") && decide (0 < asInt (getField l "quantity"))

/-- No element of the body's items array is JSON null (a null line makes
the validation loop's property access throw). -/
def noNullLines (body : JVal) : Bool :=
  match getField body "items" with
  | some (JVal.jarr ls) => ls.all (fun l => !isNull l)
  | _ => true

/-- A non-null line passes the validation loop exactly when it is good. -/
theorem checkLine_none_iff (l : JVal) (h : isNull l = false) :
    checkLine l = none ↔ goodLine l = true := by
  unfold checkLine goodLine
  rw [h]
  simp only [Bool.false_eq_true, if_false]
  cases htr : truthy (getField l "item_id") <;>
    cases hii : isIntVal (getField l "item_id") <;>
      cases hiq : isIntVal (getField l "quantity") <;>
        simp_all [Int.not_le, Int.not_lt]

/-- The validation loop accepts a null-free line list exactly when every
line is good. -/
theorem validateLines_ok_iff (ls : List JVal) (hnn : ls.all (fun l => !isNull l) = true) :
    (∃ v, validateLines ls = Except.ok v) ↔ ∀ l ∈ ls, goodLine l = true := by
  induction ls with
  | nil => simp [validateLines]
  | cons l ls ih =>
    simp only [List.all_cons, Bool.and_eq_true] at hnn
    have hl0 : isNull l = false := by
      have := hnn.1
      cases hisn : isNull l
      · rfl
      · rw [hisn] at this
        cases this
    unfold validateLines
    cases hc : checkLine l with
    | some r =>
      have hbadl : ¬ goodLine l = true := by
        intro hg
        rw [(checkLine_none_iff l hl0).mpr hg] at hc
        cases hc
      constructor
      · rintro ⟨v, hv⟩
        cases hv
      · intro hall
        exact absurd (hall l (List.mem_cons_self l ls)) hbadl
    | none =>
      have hg : goodLine l = true := (checkLine_none_iff l hl0).mp hc
      cases hrec : validateLines ls with
      | error r =>
        have hnok : ¬ ∃ v, validateLines ls = Except.ok v := by
          rw [hrec]
          rintro ⟨v, hv⟩
          cases hv
        have hnot : ¬ ∀ x ∈ ls, goodLine x = true :=
          fun hall => hnok ((ih hnn.2).mpr hall)
        constructor
        · rintro ⟨v, hv⟩
          cases hv
        · intro hall
          exact absurd (fun x hx => hall x (List.mem_cons_of_mem l hx)) hnot
      | ok rest =>
        have hall : ∀ x ∈ ls, goodLine x = true := (ih hnn.2).mp ⟨rest, hrec⟩
        constructor
        · intro _
          intro x hx
          rcases List.mem_cons.mp hx with rfl | hxs
          · exact hg
          · exact hall x hxs
        · intro _
          exact ⟨_, rfl⟩

/-- C4 counterexample: a request whose only line carries the negative
integer item identifier -3 passes validation (the check
`!item.item_id || !Number.isInteger(item.item_id)` accepts every truthy
integer, negatives included), while the claim requires it to be rejected
with a validation error. -/
theorem negative_item_id_passes_validation :
    validatePurchase (bodyLines [JVal.jobj [("item_id", JVal.jnum (-3)),
        ("quantity", JVal.jnum 1)]])
      = Except.ok ("Ann", "Main St", [(-3, 1)]) := rfl

/-- C4 (amended): for a body whose items hold no null line, the purchase
validator accepts exactly when the customer name is a truthy string, the
shipping address is a truthy string, items is a non-empty array, and every
line has a truthy integer item identifier (zero and non-integers rejected,
negative integers accepted) and a positive integer quantity; and every
rejected request leaves the store untouched, with no statement issued. -/
theorem validatePurchase_accepts_iff (body : JVal) (hnn : noNullLines body = true) :
    ((∃ v, validatePurchase body = Except.ok v)
      ↔ (truthy (getField body "customer_name") = true
         ∧ isString (getField body "customer_name") = true
         ∧ truthy (getField body "shipping_address") = true
         ∧ isString (getField body "shipping_address") = true
         ∧ ∃ ls, getField body "items" = some (JVal.jarr ls) ∧ ls ≠ []
             ∧ ∀ l ∈ ls, goodLine l = true))
    ∧ (∀ db : DB, ∀ commitOk : Bool, ∀ e : Resp, validatePurchase body = Except.error e →
        (submitPurchase db body commitOk).db = db
        ∧ (submitPurchase db body commitOk).ops = []) := by
  constructor
  · unfold validatePurchase
    by_cases h1 : (!truthy (getField body "customer_name")
        || !isString (getField body "customer_name")) = true
    · rw [if_pos h1]
      simp only [Bool.or_eq_true, Bool.not_eq_true] at h1
      constructor
      · rintro ⟨v, hv⟩
        cases hv
      · rintro ⟨ha, hb, -⟩
        rcases h1 with h | h
        · rw [ha] at h
          cases h
        · rw [hb] at h
          cases h
    · rw [if_neg h1]
      simp only [Bool.or_eq_true, Bool.not_eq_true, not_or, Bool.not_eq_false'] at h1
      by_cases h2 : (!truthy (getField body "shipping_address")
          || !isString (getField body "shipping_address")) = true
      · rw [if_pos h2]
        simp only [Bool.or_eq_true, Bool.not_eq_true] at h2
        constructor
        · rintro ⟨v, hv⟩
          cases hv
        · rintro ⟨-, -, hc, hd, -⟩
          rcases h2 with h | h
          · rw [hc] at h
            cases h
          · rw [hd] at h
            cases h
      · rw [if_neg h2]
        simp only [Bool.or_eq_true, Bool.not_eq_true, not_or, Bool.not_eq_false'] at h2
        cases hits : getField body "items" with
        | none =>
          constructor
          · rintro ⟨v, hv⟩
            cases hv
          · rintro ⟨-, -, -, -, ls, hls, -⟩
            cases hls
        | some itv =>
          cases itv with
          | jarr ls =>
            show (∃ v, (if ls.isEmpty = true
                then Except.error (Resp.badRequest "At least one item is required")
                else match validateLines ls with
                  | Except.error r => Except.error r
                  | Except.ok lines =>
                      Except.ok (asString (getField body "customer_name"),
                        asString (getField body "shipping_address"), lines))
                = Except.ok v) ↔ _
            by_cases hemp : ls.isEmpty = true
            · rw [if_pos hemp]
              have hle : ls = [] := List.isEmpty_iff.mp hemp
              constructor
              · rintro ⟨v, hv⟩
                cases hv
              · rintro ⟨-, -, -, -, ls2, hls2, hne2, -⟩
                cases hls2
                exact (hne2 hle).elim
            · rw [if_neg hemp]
              have hnnl : ls.all (fun l => !isNull l) = true := by
                unfold noNullLines at hnn
                rw [hits] at hnn
                exact hnn
              cases hrec : validateLines ls with
              | error r =>
                have hnok : ¬ ∀ l ∈ ls, goodLine l = true := by
                  intro hall
                  obtain ⟨v, hv⟩ := (validateLines_ok_iff ls hnnl).mpr hall
                  rw [hrec] at hv
                  cases hv
                constructor
                · rintro ⟨v, hv⟩
                  have hv2 : (Except.error r : Except Resp (String × String × List (Int × Int)))
                      = Except.ok v := hv
                  cases hv2
                · rintro ⟨-, -, -, -, ls2, hls2, -, hall2⟩
                  cases hls2
                  exact (hnok hall2).elim
              | ok lines =>
                have hall : ∀ l ∈ ls, goodLine l = true :=
                  (validateLines_ok_iff ls hnnl).mp ⟨lines, hrec⟩
                constructor
                · intro _
                  exact ⟨h1.1, h1.2, h2.1, h2.2, ls, rfl,
                    fun hle => hemp (by rw [hle]; rfl), hall⟩
                · intro _
                  exact ⟨_, rfl⟩
          | jnull =>
            constructor
            · rintro ⟨v, hv⟩
              cases hv
            · rintro ⟨-, -, -, -, ls, hls, -⟩
              cases hls
          | jbool b =>
            constructor
            · rintro ⟨v, hv⟩
              cases hv
            · rintro ⟨-, -, -, -, ls, hls, -⟩
              cases hls
          | jnum q =>
            constructor
            · rintro ⟨v, hv⟩
              cases hv
            · rintro ⟨-, -, -, -, ls, hls, -⟩
              cases hls
          | jstr s =>
            constructor
            · rintro ⟨v, hv⟩
              cases hv
            · rintro ⟨-, -, -, -, ls, hls, -⟩
              cases hls
          | jobj fs =>
            constructor
            · rintro ⟨v, hv⟩
              cases hv
            · rintro ⟨-, -, -, -, ls, hls, -⟩
              cases hls
  · intro db commitOk e he
    rw [submitPurchase_invalid db body commitOk e he]
    exact ⟨rfl, rfl⟩

/-- Witness for C4 at the concrete Scenario A body (one line, item 1,
quantity 3), which holds no null line. -/
theorem validatePurchase_accepts_iff_witness :
    noNullLines (bodyW 3) = true
    ∧ (((∃ v, validatePurchase (bodyW 3) = Except.ok v)
        ↔ (truthy (getField (bodyW 3) "customer_name") = true
           ∧ isString (getField (bodyW 3) "customer_name") = true
           ∧ truthy (getField (bodyW 3) "shipping_address") = true
           ∧ isString (getField (bodyW 3) "shipping_address") = true
           ∧ ∃ ls, getField (bodyW 3) "items" = some (JVal.jarr ls) ∧ ls ≠ []
               ∧ ∀ l ∈ ls, goodLine l = true))
       ∧ (∀ db : DB, ∀ commitOk : Bool, ∀ e : Resp,
            validatePurchase (bodyW 3) = Except.error e →
            (submitPurchase db (bodyW 3) commitOk).db = db
            ∧ (submitPurchase db (bodyW 3) commitOk).ops = [])) :=
  ⟨rfl, validatePurchase_accepts_iff (bodyW 3) rfl⟩

/-- C10: the item create and update endpoints reject, without touching the
store, any body whose name is not a truthy string, whose stock is not a
non-negative integer, or whose price is not a non-negative number; and
every item row either endpoint ever writes into a store satisfying
stock ≥ 0 and price ≥ 0 again satisfies stock ≥ 0 and price ≥ 0. -/
theorem item_endpoints_reject_and_preserve (db : DB) (body : JVal) (idParam : Int)
    (hbad : ¬(truthy (getField body "name") = true ∧ isString (getField body "name") = true)
          ∨ ¬(isIntVal (getField body "stock") = true ∧ 0 ≤ asInt (getField body "stock"))
          ∨ ¬(isNumVal (getField body "price") = true ∧ 0 ≤ asRat (getField body "price")))
    (hinv : ∀ it ∈ db.items, 0 ≤ it.stock ∧ 0 ≤ it.price) :
    ((postItem db body).fst = db ∧ (∃ m, (postItem db body).snd = Resp.badRequest m))
    ∧ ((putItem db idParam body).fst = db
       ∧ (∃ m, (putItem db idParam body).snd = Resp.badRequest m))
    ∧ (∀ b2 : JVal, ∀ it ∈ (postItem db b2).fst.items, 0 ≤ it.stock ∧ 0 ≤ it.price)
    ∧ (∀ b2 : JVal, ∀ i2 : Int, ∀ it ∈ (putItem db i2 b2).fst.items,
        0 ≤ it.stock ∧ 0 ≤ it.price) := by
  have herr : ∃ m, itemBodyError body = some (Resp.badRequest m) := by
    unfold itemBodyError
    by_cases h1 : (!truthy (getField body "name") || !isString (getField body "name")) = true
    · rw [if_pos h1]
      exact ⟨_, rfl⟩
    · rw [if_neg h1]
      by_cases h2 : (!isIntVal (getField body "stock")
          || decide (asInt (getField body "stock") < 0)) = true
      · rw [if_pos h2]
        exact ⟨_, rfl⟩
      · rw [if_neg h2]
        by_cases h3 : (!isNumVal (getField body "price")
            || decide (asRat (getField body "price") < 0)) = true
        · rw [if_pos h3]
          exact ⟨_, rfl⟩
        · exfalso
          simp only [Bool.or_eq_true, Bool.not_eq_true, not_or, Bool.not_eq_false',
            decide_eq_true_eq, Int.not_lt, not_lt] at h1 h2 h3
          rcases hbad with hb | hb | hb
          · exact hb ⟨h1.1, h1.2⟩
          · exact hb ⟨h2.1, h2.2⟩
          · exact hb ⟨h3.1, h3.2⟩
  obtain ⟨m, hm⟩ := herr
  have hfields : ∀ b2 : JVal, itemBodyError b2 = none →
      0 ≤ asInt (getField b2 "stock") ∧ 0 ≤ asRat (getField b2 "price") := by
    intro b2 hb2
    unfold itemBodyError at hb2
    by_cases g1 : (!truthy (getField b2 "name") || !isString (getField b2 "name")) = true
    · rw [if_pos g1] at hb2
      cases hb2
    · rw [if_neg g1] at hb2
      by_cases g2 : (!isIntVal (getField b2 "stock")
          || decide (asInt (getField b2 "stock") < 0)) = true
      · rw [if_pos g2] at hb2
        cases hb2
      · rw [if_neg g2] at hb2
        by_cases g3 : (!isNumVal (getField b2 "price")
            || decide (asRat (getField b2 "price") < 0)) = true
        · rw [if_pos g3] at hb2
          cases hb2
        · simp only [Bool.or_eq_true, Bool.not_eq_true, not_or, Bool.not_eq_false',
            decide_eq_true_eq, Int.not_lt, not_lt] at g2 g3
          exact ⟨g2.2, g3.2⟩
  have hpost : postItem db body = (db, Resp.badRequest m) := by
    unfold postItem
    rw [hm]
  have hput : putItem db idParam body = (db, Resp.badRequest m) := by
    unfold putItem
    rw [hm]
  refine ⟨⟨by rw [hpost], ⟨m, by rw [hpost]⟩⟩, ⟨by rw [hput], ⟨m, by rw [hput]⟩⟩, ?_, ?_⟩
  · intro b2 it hit
    cases hb2 : itemBodyError b2 with
    | some r =>
      have : postItem db b2 = (db, r) := by
        unfold postItem
        rw [hb2]
      rw [this] at hit
      exact hinv it hit
    | none =>
      have hps : postItem db b2
          = ({ db with
                items := db.items ++ [{ id := db.nextItemId,
                                        name := asString (getField b2 "name"),
                                        stock := asInt (getField b2 "stock"),
                                        price := asRat (getField b2 "price") }],
                nextItemId := db.nextItemId + 1 },
             Resp.createdItem db.nextItemId) := by
        unfold postItem
        rw [hb2]
      rw [hps] at hit
      rcases List.mem_append.mp hit with hold | hnew
      · exact hinv it hold
      · rcases List.mem_singleton.mp hnew with rfl
        exact hfields b2 hb2
  · intro b2 i2 it hit
    cases hb2 : itemBodyError b2 with
    | some r =>
      have : putItem db i2 b2 = (db, r) := by
        unfold putItem
        rw [hb2]
      rw [this] at hit
      exact hinv it hit
    | none =>
      by_cases hch : ((db.items.filter (fun it => it.id == i2)).length == 0) = true
      · have : putItem db i2 b2 = (db, Resp.notFound "Item not found") := by
          unfold putItem
          rw [hb2]
          rw [if_pos hch]
        rw [this] at hit
        exact hinv it hit
      · have hps : putItem db i2 b2
            = ({ db with items := db.items.map (fun it =>
                  if it.id == i2 then
                    { id := it.id,
                      name := asString (getField b2 "name"),
                      stock := asInt (getField b2 "stock"),
                      price := asRat (getField b2 "price") }
                  else it) },
               Resp.updatedOk (db.items.filter (fun it => it.id == i2)).length) := by
          unfold putItem
          rw [hb2]
          rw [if_neg hch]
        rw [hps] at hit
        obtain ⟨it0, hit0, hf⟩ := List.mem_map.mp hit
        by_cases hc : (it0.id == i2) = true
        · rw [if_pos hc] at hf
          rw [← hf]
          exact hfields b2 hb2
        · rw [if_neg hc] at hf
          rw [← hf]
          exact hinv it0 hit0

/-- Witness for C10: a body with every field missing is rejected by both
endpoints over the concrete one-item store, whose rows satisfy the
invariant. -/
theorem item_endpoints_reject_and_preserve_witness :
    (¬(truthy (getField (JVal.jobj []) "name") = true
        ∧ isString (getField (JVal.jobj []) "name") = true)
      ∨ ¬(isIntVal (getField (JVal.jobj []) "stock") = true
          ∧ 0 ≤ asInt (getField (JVal.jobj []) "stock"))
      ∨ ¬(isNumVal (getField (JVal.jobj []) "price") = true
          ∧ 0 ≤ asRat (getField (JVal.jobj []) "price")))
    ∧ (∀ it ∈ (dbW 2).items, 0 ≤ it.stock ∧ 0 ≤ it.price)
    ∧ ((((postItem (dbW 2) (JVal.jobj [])).fst = dbW 2
         ∧ (∃ m, (postItem (dbW 2) (JVal.jobj [])).snd = Resp.badRequest m))
       ∧ (((putItem (dbW 2) 1 (JVal.jobj [])).fst = dbW 2)
          ∧ (∃ m, (putItem (dbW 2) 1 (JVal.jobj [])).snd = Resp.badRequest m))
       ∧ (∀ b2 : JVal, ∀ it ∈ (postItem (dbW 2) b2).fst.items, 0 ≤ it.stock ∧ 0 ≤ it.price)
       ∧ (∀ b2 : JVal, ∀ i2 : Int, ∀ it ∈ (putItem (dbW 2) i2 b2).fst.items,
            0 ≤ it.stock ∧ 0 ≤ it.price))) :=
  ⟨Or.inl (fun h => by cases h.1),
   fun it hit => by
     rcases List.mem_singleton.mp hit with rfl
     exact ⟨by norm_num [itemW], by norm_num [itemW]⟩,
   item_endpoints_reject_and_preserve (dbW 2) (JVal.jobj []) 1
     (Or.inl (fun h => by cases h.1))
     (fun it hit => by
       rcases List.mem_singleton.mp hit with rfl
       exact ⟨by norm_num [itemW], by norm_num [itemW]⟩)⟩
